import Mathlib

/-!
Shallow embedding of the dx-monitoring VXLAN probe (Python sources under
`src/probe/`): the VXLAN/IPv4 parser, the flow-counter merge performed by the
coordinator, the sampling scale applied in the worker flush and in the
coordinator report, the alert engine (`check_fast` / `check_detail` /
`check_host`), and the metadata-cache refresh of the enricher.

Machine bytes are modelled as `Fin 256`; Python floats are modelled as `ℚ`
(every concrete computation appearing in the claims is exact in binary
floating point, and the universally quantified claims are about the real
arithmetic the code performs). Python dicts are modelled as association
lists in insertion order with first-occurrence lookup, matching dict
semantics on the duplicate-free key lists dicts produce.
-/

namespace DxMonitoring

/-- A machine byte, as delivered in a UDP datagram. -/
abbrev Byte := Fin 256

/-- Flow identity: `(src_ip, dst_ip, proto, src_port, dst_port)`, the Python
`FlowKey` tuple (IPs rendered dotted-quad by `inet_ntoa`). -/
abbrev FlowKey := String × String × ℕ × ℕ × ℕ

/-- `data[i]` for in-bounds reads (all reads in the parser are guarded by
length checks, so the default is never consulted on the success path). -/
def getByte (d : List Byte) (i : ℕ) : ℕ :=
  (d.getD i 0).val

/-- `socket.inet_ntoa`: four bytes to a dotted-quad string. -/
def ipToStr (a b c e : ℕ) : String :=
  toString a ++ "." ++ toString b ++ "." ++ toString c ++ "." ++ toString e

/-- The inner Ethernet ethertype, read big-endian at offset 8+12 = 20. -/
def ethertypeOf (d : List Byte) : ℕ :=
  256 * getByte d 20 + getByte d 21

/-- The inner IPv4 header length in bytes: `(version_ihl & 0x0F) * 4`,
`version_ihl` being the byte at offset 22. -/
def ihlOf (d : List Byte) : ℕ :=
  (getByte d 22 % 16) * 4

/-- `parse_vxlan_packet` (src/probe/multiproc_probe.py:117, identical in
src/probe/vxlan_probe.py:49): skip the 8-byte VXLAN header, require a 14-byte
inner Ethernet header with ethertype IPv4, require an inner IPv4 header of at
least 20 bytes not truncated below its IHL, and return the flow 5-tuple
together with the inner IPv4 `total_length` field. Ports are read only for
TCP(6)/UDP(17) when 4 bytes exist past the IP header; otherwise 0. -/
def parse_vxlan_packet (d : List Byte) : Option (FlowKey × ℕ) :=
  if d.length < 8 then none
  else if d.length < 8 + 14 then none
  else if ethertypeOf d ≠ 0x0800 then none
  else if d.length - 22 < 20 then none
  else
    let ihl := ihlOf d
    if ihl < 20 ∨ d.length - 22 < ihl then none
    else
      let totalLength := 256 * getByte d 24 + getByte d 25
      let protocol := getByte d 31
      let srcIp := ipToStr (getByte d 34) (getByte d 35) (getByte d 36) (getByte d 37)
      let dstIp := ipToStr (getByte d 38) (getByte d 39) (getByte d 40) (getByte d 41)
      let ports :=
        if (protocol = 6 ∨ protocol = 17) ∧ 22 + ihl + 4 ≤ d.length then
          (256 * getByte d (22 + ihl) + getByte d (22 + ihl + 1),
           256 * getByte d (22 + ihl + 2) + getByte d (22 + ihl + 3))
        else (0, 0)
      some ((srcIp, dstIp, protocol, ports.1, ports.2), totalLength)

/-! ### Association lists as Python dicts

Python dicts keep insertion order; assigning an existing key updates it in
place, a new key is appended. Iteration over a dict yields each (distinct)
key once, in insertion order. -/

/-- First-occurrence lookup, `dict.get`. -/
def lookupD {α : Type} : List (String × α) → String → Option α
  | [], _ => none
  | e :: t, k => if e.1 = k then some e.2 else lookupD t k

/-- `dict[k] = v`: replace the first occurrence in place, else append. -/
def setEntry {α : Type} : List (String × α) → String → α → List (String × α)
  | [], k, v => [(k, v)]
  | e :: t, k, v => if e.1 = k then (k, v) :: t else e :: setEntry t k v

/-! ### Coordinator merge of flow-counter snapshots
(`Coordinator._drain_queues`, src/probe/multiproc_probe.py:382-394, and the
accumulator update of `_run_loop`, lines 357-360). -/

/-- Componentwise addition of `[packets, bytes]` counter pairs. -/
def addC (a b : ℕ × ℕ) : ℕ × ℕ := (a.1 + b.1, a.2 + b.2)

/-- `entry = merged[key]; entry[0] += c[0]; entry[1] += c[1]` against a
defaultdict starting at `[0, 0]`: add into the existing entry, else insert. -/
def addEntry : List (FlowKey × (ℕ × ℕ)) → FlowKey → ℕ × ℕ → List (FlowKey × (ℕ × ℕ))
  | [], k, c => [(k, c)]
  | e :: t, k, c => if e.1 = k then (e.1, addC e.2 c) :: t else e :: addEntry t k c

/-- The counters a map holds at `k` (sum over occurrences; a Python dict has
each key at most once, so this is exactly the stored value, and `(0, 0)` for
an absent key, matching the defaultdict initial entry). -/
def getC : List (FlowKey × (ℕ × ℕ)) → FlowKey → ℕ × ℕ
  | [], _ => (0, 0)
  | e :: t, k => if e.1 = k then addC e.2 (getC t k) else getC t k

/-- Merge one snapshot into an accumulator: for each snapshot item, add its
counters into the accumulator entry (the loop body of `_drain_queues` and of
`_run_loop`'s accumulator update). -/
def mergeInto (acc snap : List (FlowKey × (ℕ × ℕ))) : List (FlowKey × (ℕ × ℕ)) :=
  snap.foldl (fun m e => addEntry m e.1 e.2) acc

/-! ### Sampling scale, worker side and coordinator side -/

/-- Python `int(x)` for a nonnegative rational: truncation = floor. -/
def pyInt (x : ℚ) : ℕ := (Int.floor x).toNat

/-- Worker-side inverse rate (src/probe/multiproc_probe.py:200):
`1.0 / sample_rate if sample_rate < 1.0 else 1.0`. -/
def workerInvRate (sampleRate : ℚ) : ℚ :=
  if sampleRate < 1 then 1 / sampleRate else 1

/-- Coordinator-side inverse rate (src/probe/multiproc_probe.py:277):
`1.0 / sample_rate if sample_rate > 0 else 1.0`. -/
def coordInvRate (sampleRate : ℚ) : ℚ :=
  if 0 < sampleRate then 1 / sampleRate else 1

/-- Worker flush scaling (src/probe/multiproc_probe.py:236-239): each flow's
counters are multiplied by the worker's `inv_rate` when it is not 1. -/
def workerScale (sampleRate : ℚ) (snap : List (FlowKey × (ℕ × ℕ))) :
    List (FlowKey × (ℕ × ℕ)) :=
  let inv := workerInvRate sampleRate
  if inv ≠ 1 then
    snap.map (fun e => (e.1, (pyInt (e.2.1 * inv), pyInt (e.2.2 * inv))))
  else snap

/-- Report scaling (src/probe/multiproc_probe.py:400-405): `_report` again
multiplies every flow's counters by the coordinator's `inv_rate`. -/
def reportScale (sampleRate : ℚ) (flows : List (FlowKey × (ℕ × ℕ))) :
    List (FlowKey × (ℕ × ℕ)) :=
  let inv := coordInvRate sampleRate
  if inv ≠ 1 then
    flows.map (fun e => (e.1, (pyInt (e.2.1 * inv), pyInt (e.2.2 * inv))))
  else flows

/-- Report totals (src/probe/multiproc_probe.py:407-408) after scaling:
`(total_packets, total_bytes)`. -/
def reportTotals (flows : List (FlowKey × (ℕ × ℕ))) : ℕ × ℕ :=
  (flows.foldl (fun s e => s + e.2.1) 0, flows.foldl (fun s e => s + e.2.2) 0)

/-- End-to-end totals for one worker flush delivered to one report: the
worker scales the snapshot at flush, the coordinator merges it into an empty
accumulator, and `_report` scales once more before summing. -/
def pipelineReportTotals (sampleRate : ℚ) (snap : List (FlowKey × (ℕ × ℕ))) : ℕ × ℕ :=
  reportTotals (reportScale sampleRate (mergeInto [] (workerScale sampleRate snap)))

/-! ### Alert engine (src/probe/alerter.py) -/

/-- The `FlowAlerter` thresholds read from the environment at construction. -/
structure AlertConfig where
  thrBps : ℚ
  thrPps : ℚ
  cooldown : ℚ
  hostBps : ℚ
  hostPps : ℚ

/-- The mutable global alert state: `_last_alert_time` and `_pending_detail`. -/
structure AlertState where
  lastAlertTime : ℚ
  pendingDetail : Bool
deriving DecidableEq

/-- `FlowAlerter.check_fast` (src/probe/alerter.py:64-104) as a pure function
of the state and of `now = time.time()`; returns the new state and whether the
fast alert fired. -/
def check_fast (cfg : AlertConfig) (st : AlertState)
    (totalBytes totalPackets : ℕ) (intervalSec now : ℚ) : AlertState × Bool :=
  if intervalSec ≤ 0 then (st, false)
  else if totalBytes * 8 / intervalSec ≤ cfg.thrBps ∧
          totalPackets / intervalSec ≤ cfg.thrPps then (st, false)
  else if now - st.lastAlertTime < cfg.cooldown then (st, false)
  else ({ lastAlertTime := now, pendingDetail := true }, true)

/-- `FlowAlerter.check_detail` (src/probe/alerter.py:106-160) as a pure
function (the top-N payloads only shape the notification text and are
omitted); returns the new state and whether a detail/standalone alert fired. -/
def check_detail (cfg : AlertConfig) (st : AlertState)
    (totalBytes totalPackets : ℕ) (intervalSec now : ℚ) : AlertState × Bool :=
  if intervalSec ≤ 0 then (st, false)
  else if st.pendingDetail ∧ (cfg.thrBps < totalBytes * 8 / intervalSec ∨
          cfg.thrPps < totalPackets / intervalSec) then
    ({ st with pendingDetail := false }, true)
  else if ¬(cfg.thrBps < totalBytes * 8 / intervalSec ∨
          cfg.thrPps < totalPackets / intervalSec) then
    ({ st with pendingDetail := false }, false)
  else if now - st.lastAlertTime < cfg.cooldown then
    ({ st with pendingDetail := false }, false)
  else ({ lastAlertTime := now, pendingDetail := false }, true)

/-- Traffic direction label attached to a per-host entry. -/
inductive Dir where
  | source
  | destination
deriving DecidableEq

/-- One entry of the `all_ips` map of `check_host`: packets, bytes, direction. -/
structure HostEntry where
  pkts : ℕ
  bytes : ℕ
  dir : Dir
deriving DecidableEq

/-- The source-phase loop body of `check_host` (src/probe/alerter.py:177-178):
`all_ips[ip] = (pkts, byt, "source")`. -/
def srcStep (m : List (String × HostEntry)) (e : String × (ℕ × ℕ)) :
    List (String × HostEntry) :=
  setEntry m e.1 ⟨e.2.1, e.2.2, Dir.source⟩

/-- The destination-phase loop body of `check_host`
(src/probe/alerter.py:179-182): replace the entry only when it is absent or
the destination byte count is strictly greater. -/
def dstStep (m : List (String × HostEntry)) (e : String × (ℕ × ℕ)) :
    List (String × HostEntry) :=
  match lookupD m e.1 with
  | none => setEntry m e.1 ⟨e.2.1, e.2.2, Dir.destination⟩
  | some prev =>
      if prev.bytes < e.2.2 then setEntry m e.1 ⟨e.2.1, e.2.2, Dir.destination⟩
      else m

/-- The `all_ips` construction of `check_host` (src/probe/alerter.py:175-182):
insert every source-direction entry, then let a destination-direction entry
replace it only when its byte count is strictly greater. -/
def buildAllIps (srcAgg dstAgg : List (String × (ℕ × ℕ))) :
    List (String × HostEntry) :=
  dstAgg.foldl dstStep (srcAgg.foldl srcStep [])

/-- The alert loop of `check_host` (src/probe/alerter.py:187-203): for each
entry, test the positive per-host thresholds, then the per-host cooldown;
on success record `now` and append the address. Returns the updated
per-host cooldown map and the alerted list. -/
def checkHostLoop (cfg : AlertConfig) (cooldowns : List (String × ℚ))
    (now intervalSec : ℚ) (allIps : List (String × HostEntry)) :
    List (String × ℚ) × List String :=
  allIps.foldl
    (fun st e =>
      if (0 < cfg.hostBps ∧ cfg.hostBps < e.2.bytes * 8 / intervalSec) ∨
         (0 < cfg.hostPps ∧ cfg.hostPps < e.2.pkts / intervalSec) then
        if now - (lookupD st.1 e.1).getD 0 < cfg.cooldown then st
        else (setEntry st.1 e.1 now, st.2 ++ [e.1])
      else st)
    (cooldowns, [])

/-- `FlowAlerter.check_host` (src/probe/alerter.py:162-223) as a pure function
of the per-host cooldown map and `now`; the `enriched` metadata only shapes the
notification text and is omitted. -/
def check_host (cfg : AlertConfig) (cooldowns : List (String × ℚ))
    (srcAgg dstAgg : List (String × (ℕ × ℕ))) (intervalSec now : ℚ) :
    List (String × ℚ) × List String :=
  if intervalSec ≤ 0 then (cooldowns, [])
  else if cfg.hostBps ≤ 0 ∧ cfg.hostPps ≤ 0 then (cooldowns, [])
  else checkHostLoop cfg cooldowns now intervalSec (buildAllIps srcAgg dstAgg)

/-- One invocation of `check_fast`: the totals and interval passed by the
coordinator poll, and the wall-clock time `time.time()` observed inside. -/
structure FastCall where
  bytes : ℕ
  pkts : ℕ
  interval : ℚ
  now : ℚ

/-- The wall-clock times at which a sequence of `check_fast` invocations
returns true, threading the alert state through the calls. -/
def fireTimes (cfg : AlertConfig) : AlertState → List FastCall → List ℚ
  | _, [] => []
  | st, c :: rest =>
      if (check_fast cfg st c.bytes c.pkts c.interval c.now).2 then
        c.now :: fireTimes cfg (check_fast cfg st c.bytes c.pkts c.interval c.now).1 rest
      else fireTimes cfg (check_fast cfg st c.bytes c.pkts c.interval c.now).1 rest

/-- What one destination-aggregate entry `(pd, bd)` does to the `all_ips`
entry already present for the same address. -/
def dstCombine : Option HostEntry → ℕ → ℕ → HostEntry
  | none, p, b => ⟨p, b, Dir.destination⟩
  | some prev, p, b => if prev.bytes < b then ⟨p, b, Dir.destination⟩ else prev

/-! ### Metadata cache (src/probe/enricher.py) -/

/-- The per-address metadata record built by `IPEnricher._refresh`. -/
structure HostMeta where
  instanceId : String
  name : String
  asg : String
  owner : String
deriving DecidableEq

/-- One inventory instance as consumed by `_refresh`: its id, its tag map,
and the private addresses found across its network interfaces. -/
structure EC2Instance where
  instanceId : String
  tags : List (String × String)
  ips : List String

/-- The metadata extracted from one instance's tags
(src/probe/enricher.py:52-55). -/
def metaOf (inst : EC2Instance) : HostMeta :=
  { instanceId := inst.instanceId
    name := (lookupD inst.tags "Name").getD ""
    asg := (lookupD inst.tags "aws:autoscaling:groupName").getD ""
    owner := (lookupD inst.tags "Owner").getD "" }

/-- Build `new_cache` from the inventory (src/probe/enricher.py:46-66):
iterate the instances, inserting every private address with that instance's
metadata (last write wins for a duplicated address). -/
def buildCache (instances : List EC2Instance) : List (String × HostMeta) :=
  instances.foldl
    (fun c inst => inst.ips.foldl (fun c ip => setEntry c ip (metaOf inst)) c) []

/-- `IPEnricher._refresh` (src/probe/enricher.py:38-73): the inventory query
either yields the instance list or raises. Only on success is the published
snapshot replaced by the newly built cache; on failure the old snapshot is
kept unchanged. -/
def refresh (query : Except String (List EC2Instance))
    (cache : List (String × HostMeta)) : List (String × HostMeta) :=
  match query with
  | Except.error _ => cache
  | Except.ok instances => buildCache instances

/-- `IPEnricher.enrich` (src/probe/enricher.py:75-80): the result always
carries the address, plus the cached metadata when present. -/
def enrich (cache : List (String × HostMeta)) (ip : String) :
    String × Option HostMeta :=
  (ip, lookupD cache ip)

/-! ### Concrete inputs used by counterexamples and witnesses -/

/-- A 42-byte datagram: 8-byte VXLAN header, 14-byte Ethernet header with
ethertype 0x0800, and a minimal 20-byte IPv4 header whose `total_length`
field reads 0xFFFF = 65535, protocol 0, src 10.0.1.1, dst 10.0.2.2. -/
def exPkt : List Byte :=
  List.replicate 20 (0 : Byte) ++ [(8 : Byte), 0] ++
  ([69, 0, 255, 255, 0, 0, 0, 0, 64, 0, 0, 0, 10, 0, 1, 1, 10, 0, 2, 2] : List Byte)

/-- A single flow key. -/
def k1 : FlowKey := ("10.0.1.1", "10.0.2.2", 6, 1234, 80)

/-- The alerter configuration of the per-host scenario: `ALERT_HOST_BPS=1000`,
per-host pps disabled, default global thresholds and cooldown. -/
def cfgC3 : AlertConfig :=
  { thrBps := 1000000000, thrPps := 1000000, cooldown := 300
    hostBps := 1000, hostPps := 0 }

/-- The source aggregate of the per-host scenario:
`{10.0.1.1: (10, 2000), 10.0.1.2: (5, 500)}`. -/
def src3 : List (String × (ℕ × ℕ)) :=
  [("10.0.1.1", (10, 2000)), ("10.0.1.2", (5, 500))]

/-- An alerter configuration with thresholds 1000 bps / 100 pps and a 300 s
cooldown (the values of the fast→detail test scenario). -/
def cfgLow : AlertConfig :=
  { thrBps := 1000, thrPps := 100, cooldown := 300, hostBps := 0, hostPps := 0 }

/-! ## Theorems -/

/-! ### Parser (claims C2, C7) -/

lemma getByte_le (d : List Byte) (i : ℕ) : getByte d i ≤ 255 :=
  Nat.lt_succ_iff.mp (d.getD i 0).isLt

/-- Whenever the parser succeeds, every length check passed, and the returned
inner length and protocol are the raw header fields. -/
lemma parse_some_conditions {d : List Byte} {kl : FlowKey × ℕ}
    (h : parse_vxlan_packet d = some kl) :
    42 ≤ d.length ∧ 20 ≤ ihlOf d ∧ 22 + ihlOf d ≤ d.length ∧
      ethertypeOf d = 0x0800 ∧ kl.2 = 256 * getByte d 24 + getByte d 25 ∧
      kl.1.2.2.1 = getByte d 31 := by
  simp only [parse_vxlan_packet] at h
  split_ifs at h with h1 h2 h3 h4 h5 h6
  all_goals {
    injection h with h
    subst h
    rw [not_or] at h5
    refine ⟨by omega, by omega, by omega, not_not.mp h3, rfl, rfl⟩
  }

/-- C2 counterexample: `exPkt` is a 42-byte datagram the parser accepts with
inner length 65535 — the returned length is the inner IPv4 `total_length`
field and exceeds the datagram length, refuting `len ≤ |d|`. -/
theorem C2_counterexample :
    parse_vxlan_packet exPkt = some (("10.0.1.1", "10.0.2.2", 0, 0, 0), 65535) ∧
      exPkt.length = 42 ∧ ¬(65535 ≤ exPkt.length) :=
  ⟨by decide, by decide, by decide⟩

/-- C2 (amended): for every byte string `d`, `parse_vxlan_packet d` returns
either `none` or `(key, len)` with the protocol field in `[0, 255]` and
`len ≤ 65535` (the inner IPv4 `total_length` field, which can exceed `|d|`). -/
theorem C2_parser_totality_amended (d : List Byte) (k : FlowKey) (len : ℕ)
    (h : parse_vxlan_packet d = some (k, len)) :
    k.2.2.1 ≤ 255 ∧ len ≤ 65535 := by
  obtain ⟨-, -, -, -, hlen, hproto⟩ := parse_some_conditions h
  constructor
  · simpa using hproto ▸ getByte_le d 31
  · have h24 := getByte_le d 24
    have h25 := getByte_le d 25
    simp only at hlen
    omega

/-- C2 witness: the amended totality theorem applied to the accepted 42-byte
datagram `exPkt`. -/
theorem C2_parser_totality_witness :
    (("10.0.1.1", "10.0.2.2", 0, 0, 0) : FlowKey).2.2.1 ≤ 255 ∧ 65535 ≤ 65535 :=
  C2_parser_totality_amended exPkt ("10.0.1.1", "10.0.2.2", 0, 0, 0) 65535 (by decide)

/-- C7: `parse_vxlan_packet` returns `none` for every input shorter than 8,
22, or 42 bytes, with an IHL field decoding below 20 bytes, with an inner
IPv4 header truncated below its IHL, or with a non-IPv4 inner ethertype. -/
theorem C7_parser_rejection (d : List Byte)
    (h : d.length < 8 ∨ d.length < 22 ∨ d.length < 42 ∨ ihlOf d < 20 ∨
      d.length < 22 + ihlOf d ∨ ethertypeOf d ≠ 0x0800) :
    parse_vxlan_packet d = none := by
  cases hp : parse_vxlan_packet d with
  | none => rfl
  | some kl =>
      obtain ⟨hl, hihl, htr, heth, -, -⟩ := parse_some_conditions hp
      rcases h with h | h | h | h | h | h
      · omega
      · omega
      · omega
      · omega
      · omega
      · exact absurd heth h

/-- C7 witness: the rejection theorem applied to the empty datagram. -/
theorem C7_parser_rejection_witness : parse_vxlan_packet [] = none :=
  C7_parser_rejection [] (Or.inl (by norm_num))

/-! ### Global fast-alert cooldown (claim C4) -/

lemma check_fast_fire {cfg : AlertConfig} {st : AlertState} {b p : ℕ} {i n : ℚ}
    (h : (check_fast cfg st b p i n).2 = true) :
    (check_fast cfg st b p i n).1.lastAlertTime = n ∧
      st.lastAlertTime + cfg.cooldown ≤ n := by
  unfold check_fast at h ⊢
  split_ifs at h ⊢ with h1 h2 h3
  · exact ⟨rfl, by linarith [not_lt.mp h3]⟩

lemma check_fast_nofire {cfg : AlertConfig} {st : AlertState} {b p : ℕ} {i n : ℚ}
    (h : (check_fast cfg st b p i n).2 = false) :
    (check_fast cfg st b p i n).1 = st := by
  unfold check_fast at h ⊢
  split_ifs at h ⊢
  all_goals rfl

/-- Every firing time of a `check_fast` call sequence lies at least one
cooldown past the initial `lastAlertTime`. -/
lemma fireTimes_lb (cfg : AlertConfig) (hcd : 0 ≤ cfg.cooldown) :
    ∀ (calls : List FastCall) (st : AlertState) (t : ℚ),
      t ∈ fireTimes cfg st calls → st.lastAlertTime + cfg.cooldown ≤ t := by
  intro calls
  induction calls with
  | nil => intro st t ht; simp [fireTimes] at ht
  | cons c rest ih =>
      intro st t ht
      simp only [fireTimes] at ht
      by_cases hf : (check_fast cfg st c.bytes c.pkts c.interval c.now).2 = true
      · rw [if_pos hf] at ht
        obtain ⟨hlast, hle⟩ := check_fast_fire hf
        rcases List.mem_cons.mp ht with rfl | ht
        · exact hle
        · have hlb := ih _ t ht
          rw [hlast] at hlb
          linarith
      · rw [Bool.not_eq_true] at hf
        rw [if_neg (by simp [hf])] at ht
        rw [← check_fast_nofire hf]
        exact ih _ t ht

/-- Successive firing times of a `check_fast` call sequence are separated by
at least the cooldown. -/
lemma fireTimes_sep (cfg : AlertConfig) (hcd : 0 ≤ cfg.cooldown) :
    ∀ (calls : List FastCall) (st : AlertState),
      (fireTimes cfg st calls).Pairwise (fun a b => a + cfg.cooldown ≤ b) := by
  intro calls
  induction calls with
  | nil => intro st; simp [fireTimes]
  | cons c rest ih =>
      intro st
      simp only [fireTimes]
      by_cases hf : (check_fast cfg st c.bytes c.pkts c.interval c.now).2 = true
      · rw [if_pos hf]
        refine List.Pairwise.cons ?_ (ih _)
        intro t ht
        have hlb := fireTimes_lb cfg hcd rest _ t ht
        rw [(check_fast_fire hf).1] at hlb
        linarith
      · rw [Bool.not_eq_true] at hf
        rw [if_neg (by simp [hf])]
        exact ih _

/-- C4: over any sequence of `check_fast` calls, at most one call fires within
any half-open window of length `cooldown`; moreover a firing records its call
time in `lastAlertTime`, and any call within the cooldown of the recorded time
returns false. -/
theorem C4_fast_cooldown (cfg : AlertConfig) (st : AlertState)
    (calls : List FastCall) (hcd : 0 ≤ cfg.cooldown) :
    (∀ a : ℚ, ((fireTimes cfg st calls).filter
        (fun t => decide (a ≤ t ∧ t < a + cfg.cooldown))).length ≤ 1) ∧
    (∀ st2 : AlertState, ∀ b p : ℕ, ∀ i n : ℚ,
        n - st2.lastAlertTime < cfg.cooldown →
          (check_fast cfg st2 b p i n).2 = false) ∧
    (∀ st2 : AlertState, ∀ b p : ℕ, ∀ i n : ℚ,
        (check_fast cfg st2 b p i n).2 = true →
          (check_fast cfg st2 b p i n).1.lastAlertTime = n) := by
  refine ⟨?_, ?_, ?_⟩
  · intro a
    have hsub : (fireTimes cfg st calls).filter
        (fun t => decide (a ≤ t ∧ t < a + cfg.cooldown))
          |>.Sublist (fireTimes cfg st calls) :=
      List.filter_sublist _
    have hpw := List.Pairwise.sublist hsub (fireTimes_sep cfg hcd calls st)
    match hl : (fireTimes cfg st calls).filter
        (fun t => decide (a ≤ t ∧ t < a + cfg.cooldown)) with
    | [] => simp
    | [x] => simp
    | x :: y :: rest =>
        exfalso
        rw [hl] at hpw
        have hxy : x + cfg.cooldown ≤ y := (List.pairwise_cons.mp hpw).1 y (by simp)
        have hx : x ∈ (fireTimes cfg st calls).filter
            (fun t => decide (a ≤ t ∧ t < a + cfg.cooldown)) := by rw [hl]; simp
        have hy : y ∈ (fireTimes cfg st calls).filter
            (fun t => decide (a ≤ t ∧ t < a + cfg.cooldown)) := by rw [hl]; simp
        have hxp : a ≤ x ∧ x < a + cfg.cooldown := by
          simpa using List.of_mem_filter hx
        have hyp : a ≤ y ∧ y < a + cfg.cooldown := by
          simpa using List.of_mem_filter hy
        linarith [hxp.1, hxp.2, hyp.1, hyp.2]
  · intro st2 b p i n hlt
    unfold check_fast
    split_ifs
    all_goals rfl
  · intro st2 b p i n h
    exact (check_fast_fire h).1

/-- C4 witness: the cooldown theorem applied to two breaching calls 100 s
apart under a 300 s cooldown, counting fires in the window starting at 900. -/
theorem C4_fast_cooldown_witness : ((fireTimes cfgLow ⟨0, false⟩
    [⟨2000, 5, 1, 1000⟩, ⟨2000, 5, 1, 1100⟩]).filter
      (fun t => decide (900 ≤ t ∧ t < 900 + cfgLow.cooldown))).length ≤ 1 :=
  (C4_fast_cooldown cfgLow ⟨0, false⟩ [⟨2000, 5, 1, 1000⟩, ⟨2000, 5, 1, 1100⟩]
    (by norm_num [cfgLow])).1 900

/-! ### Detail follow-up and pending flag (claims C5, C6) -/

/-- C5: when the pending-detail flag is set, the interval is positive, and a
threshold is breached, `check_detail` clears the flag and returns true with
`lastAlertTime` untouched, for every value of `now` — the cooldown is never
consulted. -/
theorem C5_detail_bypass (cfg : AlertConfig) (st : AlertState) (b p : ℕ)
    (i n : ℚ) (hi : 0 < i) (hpend : st.pendingDetail = true)
    (hbr : cfg.thrBps < b * 8 / i ∨ cfg.thrPps < p / i) :
    check_detail cfg st b p i n = ({ st with pendingDetail := false }, true) := by
  unfold check_detail
  rw [if_neg (not_le.mpr hi), if_pos ⟨by simp [hpend], hbr⟩]

/-- C5 witness: a detail follow-up fired 1 s after the fast alert, well
inside the 300 s cooldown, leaving `lastAlertTime` at 42. -/
theorem C5_detail_bypass_witness :
    check_detail cfgLow ⟨42, true⟩ 2000 5 1 43 = (⟨42, false⟩, true) :=
  C5_detail_bypass cfgLow ⟨42, true⟩ 2000 5 1 43 (by norm_num) rfl
    (Or.inl (by norm_num [cfgLow]))

/-- C6 counterexample: `check_detail` invoked with `interval_sec = 0` returns
before reaching the flag-clearing statements, so the pending-detail flag
survives the invocation, refuting the claim for arbitrary arguments. -/
theorem C6_counterexample :
    (check_detail cfgLow ⟨0, true⟩ 99999 99999 0 1000).1.pendingDetail = true := by
  decide

/-- C6 (amended): the pending-detail flag is set only by a `check_fast` call
that fires, and every `check_detail` invocation with positive interval leaves
the flag false. -/
theorem C6_pending_flag_amended :
    (∀ cfg : AlertConfig, ∀ st : AlertState, ∀ b p : ℕ, ∀ i n : ℚ,
      (check_fast cfg st b p i n).1.pendingDetail = true →
        (check_fast cfg st b p i n).2 = true ∨ st.pendingDetail = true) ∧
    (∀ cfg : AlertConfig, ∀ st : AlertState, ∀ b p : ℕ, ∀ i n : ℚ, 0 < i →
      (check_detail cfg st b p i n).1.pendingDetail = false) := by
  constructor
  · intro cfg st b p i n h
    unfold check_fast at h ⊢
    split_ifs at h ⊢
    all_goals first | (exact Or.inr h) | (exact Or.inl rfl)
  · intro cfg st b p i n hi
    unfold check_detail
    split_ifs with h1 h2 h3
    all_goals first | rfl | linarith

/-- C6 witness: a `check_detail` invocation with interval 1 s clears the
pending flag. -/
theorem C6_pending_flag_witness :
    (check_detail cfgLow ⟨0, true⟩ 1 1 1 1000).1.pendingDetail = false :=
  C6_pending_flag_amended.2 cfgLow ⟨0, true⟩ 1 1 1 1000 (by norm_num)

/-! ### Cache fallback (claim C8) and merge algebra (claim C9) -/

/-- C8: a failed refresh leaves the published snapshot intact, so enriching
any address afterwards returns exactly what it returned before. -/
theorem C8_cache_fallback (err : String) (cache : List (String × HostMeta))
    (ip : String) :
    refresh (Except.error err) cache = cache ∧
      enrich (refresh (Except.error err) cache) ip = enrich cache ip :=
  ⟨rfl, rfl⟩

lemma getC_addEntry (m : List (FlowKey × (ℕ × ℕ))) (k : FlowKey) (c : ℕ × ℕ)
    (j : FlowKey) :
    getC (addEntry m k c) j = if k = j then addC (getC m j) c else getC m j := by
  induction m with
  | nil =>
      simp only [addEntry, getC]
      split_ifs with h <;> simp [addC]
  | cons e t ih =>
      by_cases h1 : e.1 = k
      · rw [addEntry, if_pos h1]
        by_cases h2 : k = j
        · subst h2
          rw [getC, if_pos h1, if_pos rfl, getC, if_pos h1]
          simp [addC]
          omega
        · have h3 : e.1 ≠ j := h1 ▸ h2
          rw [getC, if_neg h3, if_neg h2, getC, if_neg h3]
      · rw [addEntry, if_neg h1, getC, ih]
        by_cases h2 : e.1 = j
        · rw [if_pos h2, getC, if_pos h2]
          have h3 : k ≠ j := fun hk => h1 (hk ▸ h2.symm ▸ rfl)
          rw [if_neg h3, if_neg h3]
        · rw [if_neg h2, getC, if_neg h2]

/-- Merging a snapshot adds its counters pointwise to the accumulator. -/
lemma getC_mergeInto : ∀ (snap acc : List (FlowKey × (ℕ × ℕ))) (j : FlowKey),
    getC (mergeInto acc snap) j = addC (getC acc j) (getC snap j) := by
  intro snap
  induction snap with
  | nil => intro acc j; simp [mergeInto, getC, addC]
  | cons e t ih =>
      intro acc j
      show getC (mergeInto (addEntry acc e.1 e.2) t) j = _
      rw [ih, getC_addEntry, getC]
      by_cases h : e.1 = j
      · rw [if_pos h, if_pos h]
        simp [addC]
        omega
      · rw [if_neg h, if_neg h]

/-- C9: the coordinator's snapshot merge is associative and commutative on
the per-key counters — any merge order yields the same accumulator. -/
theorem C9_merge_assoc_comm (a b c : List (FlowKey × (ℕ × ℕ))) (k : FlowKey) :
    getC (mergeInto (mergeInto a b) c) k = getC (mergeInto a (mergeInto b c)) k ∧
    getC (mergeInto a b) k = getC (mergeInto b a) k := by
  constructor <;> simp [getC_mergeInto, addC] <;> omega

/-! ### Sampling scale applied twice (claim C1) -/

/-- C1: evaluating the worker-flush → merge → report pipeline at
`sample_rate = 0.5` on one flush holding 1,000 sampled-in packets of 1,000
bytes: the worker already multiplies the counters by `1/rate` at flush time
and `_report` multiplies them by `1/rate` again, so the emitted totals are
(4000, 4000000), not the (2000, 2000000) the specification requires — the
inverse scale is applied twice, not once. -/
theorem C1_sampling_double_scaled :
    pipelineReportTotals (1/2) [(k1, (1000, 1000000))] = (4000, 4000000) ∧
    pipelineReportTotals (1/2) [(k1, (1000, 1000000))] ≠ (2000, 2000000) := by
  have h : pipelineReportTotals (1/2) [(k1, (1000, 1000000))] = (4000, 4000000) := by
    norm_num [pipelineReportTotals, reportTotals, reportScale, mergeInto, workerScale,
      pyInt, workerInvRate, coordInvRate, addEntry, addC]
    rw [show Int.toNat 2000 = 2000 from rfl, show Int.toNat 2000000 = 2000000 from rfl]
    norm_num
    exact ⟨rfl, rfl⟩
  refine ⟨h, by rw [h]; decide⟩

/-! ### Per-host alerting (claims C3, C10) -/

/-- C3 counterexample: with `ALERT_HOST_BPS = 1000`, per-host pps disabled,
`src_agg = {10.0.1.1: (10, 2000), 10.0.1.2: (5, 500)}`, empty `dst_agg`,
interval 1 s and no prior cooldown state, `check_host` alerts both hosts —
10.0.1.2 emits 500 bytes/s = 4000 bps, above the 1000 bps threshold — so the
alerted list is not `[10.0.1.1]`. -/
theorem C3_counterexample :
    (check_host cfgC3 [] src3 [] 1 1000000).2 = ["10.0.1.1", "10.0.1.2"] ∧
    (check_host cfgC3 [] src3 [] 1 1000000).2 ≠ ["10.0.1.1"] := by
  have hne : ("10.0.1.1" : String) ≠ "10.0.1.2" := by decide
  have hL : (check_host cfgC3 [] src3 [] 1 1000000).2 = ["10.0.1.1", "10.0.1.2"] := by
    norm_num [check_host, cfgC3, src3, checkHostLoop, buildAllIps, srcStep, dstStep,
      setEntry, lookupD, List.foldl, hne]
  exact ⟨hL, by rw [hL]; decide⟩

/-- C3 (amended): under the same inputs, whenever the per-host cooldowns are
empty and `now` is at least the 300 s cooldown, the alerted list is
`[10.0.1.1, 10.0.1.2]` — both hosts exceed 1000 bps. -/
theorem C3_host_alert_amended (now : ℚ) (h : 300 ≤ now) :
    (check_host cfgC3 [] src3 [] 1 now).2 = ["10.0.1.1", "10.0.1.2"] := by
  have hne : ("10.0.1.1" : String) ≠ "10.0.1.2" := by decide
  norm_num [check_host, cfgC3, src3, checkHostLoop, buildAllIps, srcStep, dstStep,
    setEntry, lookupD, List.foldl, hne]
  split_ifs with h1 h2 h3
  · linarith
  · linarith
  · simp [lookupD, hne] at h3
    linarith
  · rfl

/-- C3 witness: the amended theorem applied at `now = 400`. -/
theorem C3_host_alert_witness :
    (check_host cfgC3 [] src3 [] 1 400).2 = ["10.0.1.1", "10.0.1.2"] :=
  C3_host_alert_amended 400 (by norm_num)

lemma lookupD_setEntry {α : Type} (m : List (String × α)) (k j : String) (v : α) :
    lookupD (setEntry m k v) j = if k = j then some v else lookupD m j := by
  induction m with
  | nil => simp [setEntry, lookupD]
  | cons e t ih =>
      by_cases h1 : e.1 = k
      · rw [setEntry, if_pos h1, lookupD]
        by_cases h2 : k = j
        · rw [if_pos h2, if_pos h2]
        · rw [if_neg h2, if_neg h2, lookupD, if_neg (h1 ▸ h2)]
      · rw [setEntry, if_neg h1, lookupD, ih]
        by_cases h2 : e.1 = j
        · have h3 : k ≠ j := fun hk => h1 (by rw [hk, ← h2])
          rw [if_pos h2, if_neg h3, lookupD, if_pos h2]
        · rw [if_neg h2, lookupD, if_neg h2]

lemma lookupD_srcFold_notmem :
    ∀ (t : List (String × (ℕ × ℕ))) (m : List (String × HostEntry)) (j : String),
      j ∉ t.map Prod.fst → lookupD (t.foldl srcStep m) j = lookupD m j := by
  intro t
  induction t with
  | nil => intro m j hj; rfl
  | cons e r ih =>
      intro m j hj
      simp only [List.map_cons, List.mem_cons, not_or] at hj
      show lookupD (r.foldl srcStep (srcStep m e)) j = _
      rw [ih _ _ hj.2, srcStep, lookupD_setEntry, if_neg (fun hk => hj.1 hk.symm)]

/-- After the source phase, an address with a unique source-aggregate entry
maps to that entry tagged `source`. -/
lemma lookupD_srcFold_mem :
    ∀ (t : List (String × (ℕ × ℕ))) (m : List (String × HostEntry)) (j : String)
      (p b : ℕ), (t.map Prod.fst).Nodup → lookupD t j = some (p, b) →
      lookupD (t.foldl srcStep m) j = some ⟨p, b, Dir.source⟩ := by
  intro t
  induction t with
  | nil => intro m j p b hnd hl; simp [lookupD] at hl
  | cons e r ih =>
      intro m j p b hnd hl
      simp only [List.map_cons, List.nodup_cons] at hnd
      rw [lookupD] at hl
      by_cases h1 : e.1 = j
      · rw [if_pos h1] at hl
        injection hl with hl
        show lookupD (r.foldl srcStep (srcStep m e)) j = _
        rw [lookupD_srcFold_notmem r _ j (h1 ▸ hnd.1), srcStep, lookupD_setEntry,
          if_pos h1, hl]
      · rw [if_neg h1] at hl
        exact ih _ _ _ _ hnd.2 hl

lemma lookupD_dstStep_ne (m : List (String × HostEntry)) (e : String × (ℕ × ℕ))
    (j : String) (h : e.1 ≠ j) : lookupD (dstStep m e) j = lookupD m j := by
  unfold dstStep
  split
  · rw [lookupD_setEntry, if_neg h]
  · split
    · rw [lookupD_setEntry, if_neg h]
    · rfl

lemma lookupD_dstStep_self (m : List (String × HostEntry)) (e : String × (ℕ × ℕ)) :
    lookupD (dstStep m e) e.1 = some (dstCombine (lookupD m e.1) e.2.1 e.2.2) := by
  unfold dstStep
  split
  · next heq =>
      rw [lookupD_setEntry, if_pos rfl, heq]
      rfl
  · next prev heq =>
      rw [heq]
      by_cases hlt : prev.bytes < e.2.2
      · rw [if_pos hlt, lookupD_setEntry, if_pos rfl]
        simp [dstCombine, hlt]
      · rw [if_neg hlt, heq]
        simp [dstCombine, hlt]

lemma lookupD_dstFold_notmem :
    ∀ (t : List (String × (ℕ × ℕ))) (m : List (String × HostEntry)) (j : String),
      j ∉ t.map Prod.fst → lookupD (t.foldl dstStep m) j = lookupD m j := by
  intro t
  induction t with
  | nil => intro m j hj; rfl
  | cons e r ih =>
      intro m j hj
      simp only [List.map_cons, List.mem_cons, not_or] at hj
      show lookupD (r.foldl dstStep (dstStep m e)) j = _
      rw [ih _ _ hj.2, lookupD_dstStep_ne _ _ _ (fun hk => hj.1 hk.symm)]

/-- After the destination phase, an address with a unique destination
aggregate entry maps to the `dstCombine` of its previous entry with the
destination counters. -/
lemma lookupD_dstFold_mem :
    ∀ (t : List (String × (ℕ × ℕ))) (m : List (String × HostEntry)) (j : String)
      (p b : ℕ), (t.map Prod.fst).Nodup → lookupD t j = some (p, b) →
      lookupD (t.foldl dstStep m) j = some (dstCombine (lookupD m j) p b) := by
  intro t
  induction t with
  | nil => intro m j p b hnd hl; simp [lookupD] at hl
  | cons e r ih =>
      intro m j p b hnd hl
      simp only [List.map_cons, List.nodup_cons] at hnd
      rw [lookupD] at hl
      by_cases h1 : e.1 = j
      · rw [if_pos h1] at hl
        injection hl with hl
        show lookupD (r.foldl dstStep (dstStep m e)) j = _
        rw [lookupD_dstFold_notmem r _ j (h1 ▸ hnd.1), ← h1, lookupD_dstStep_self, hl]
      · rw [if_neg h1] at hl
        show lookupD (r.foldl dstStep (dstStep m e)) j = _
        rw [← lookupD_dstStep_ne m e j h1]
        exact ih _ _ _ _ hnd.2 hl

/-- C10: for an address present in both aggregates, `check_host` keeps the
destination entry only when its byte count is strictly greater than the
source byte count; on a tie the source entry — direction and counters —
is used. -/
theorem C10_direction_tiebreak (src dst : List (String × (ℕ × ℕ))) (ip : String)
    (ps bs pd bd : ℕ)
    (hs : (src.map Prod.fst).Nodup) (hd : (dst.map Prod.fst).Nodup)
    (hsrc : lookupD src ip = some (ps, bs)) (hdst : lookupD dst ip = some (pd, bd)) :
    lookupD (buildAllIps src dst) ip =
      some (if bs < bd then (⟨pd, bd, Dir.destination⟩ : HostEntry)
            else ⟨ps, bs, Dir.source⟩) := by
  unfold buildAllIps
  rw [lookupD_dstFold_mem dst _ ip pd bd hd hdst,
      lookupD_srcFold_mem src [] ip ps bs hs hsrc]
  simp [dstCombine]

/-- C10 witness: equal byte counts (100 = 100) keep the source entry. -/
theorem C10_direction_tiebreak_witness :
    lookupD (buildAllIps [("10.0.1.1", (1, 100))] [("10.0.1.1", (2, 100))]) "10.0.1.1" =
      some (if 100 < 100 then (⟨2, 100, Dir.destination⟩ : HostEntry)
            else ⟨1, 100, Dir.source⟩) :=
  C10_direction_tiebreak [("10.0.1.1", (1, 100))] [("10.0.1.1", (2, 100))]
    "10.0.1.1" 1 100 2 100 (by simp) (by simp) (by simp [lookupD]) (by simp [lookupD])

end DxMonitoring
